import Mathlib

/-
Shallow embedding of the HTM spatial-pooler sketch (src/htm.py).

Python floats are modelled as exact rationals (ℚ): every constant in the
source (0.1, 0.05, 0.2, 1.0, 5.0) and every value arising in the scenarios
is an exact decimal, and the algorithms use only +, -, *, and comparisons.

The source is an unfinished sketch: `kthScore`, `getNeighbors`,
`Synapse.getSourceInput` (called as the misspelt `getSourcetInput`) and
`Column.getSynapses` are called but nowhere defined.  Those definitions are
modelled from the spec (each carries a doc comment saying so); everything
else is translated directly from the source.
-/

/-- Raised when a synapse's input index lies outside the input vector
(spec §7 error taxonomy). -/
inductive OutOfRangeError : Type
  | mk : OutOfRangeError
deriving DecidableEq

/-- Source line 9: `PERMANENCE_INC = 0.1`. -/
def PERMANENCE_INC : ℚ := 1/10

/-- Source line 10: `PERMANENCE_DEC = 0.05`. -/
def PERMANENCE_DEC : ℚ := 5/100

/-- Source line 13: `CONNECTED_PERM = 0.2`. -/
def CONNECTED_PERM : ℚ := 2/10

/-- Source lines 17-21: a synapse owns a transient activity flag, an index
into the input vector, and a permanence. -/
structure Synapse : Type where
  isactive : Bool
  inputIndex : Nat
  permanence : ℚ
deriving DecidableEq

/-- Source lines 18-21 (`Synapse.__init__`): active flag false, given input
index, permanence 0.0. -/
def Synapse.init (inputIndex : Nat) : Synapse :=
  { isactive := false, inputIndex := inputIndex, permanence := 0 }

/-- Source lines 23-24 (name misspelt in the source): connected iff
permanence is strictly greater than CONNECTED_PERM. -/
def Synapse.isConnnected (s : Synapse) : Bool :=
  decide (CONNECTED_PERM < s.permanence)

/-- Source lines 26-27: stores the argument directly (the Python default
argument is 0.0; callers in findOverlap pass the value explicitly or rely
on the default, which we write as an explicit 0). No clamping. -/
def Synapse.setPermanence (s : Synapse) (perm : ℚ) : Synapse :=
  { s with permanence := perm }

/-- Source lines 29-30. -/
def Synapse.getPermanence (s : Synapse) : ℚ := s.permanence

/-- Source lines 32-33. -/
def Synapse.isActive (s : Synapse) : Bool := s.isactive

/-- Source lines 35-36. -/
def Synapse.setActive (s : Synapse) (active : Bool) : Synapse :=
  { s with isactive := active }

/-- Source lines 38-41: add `inc` (Python default PERMANENCE_INC), then
clamp from above at 1.0 only. -/
def Synapse.incPerm (s : Synapse) (inc : ℚ) : Synapse :=
  let p := s.permanence + inc
  { s with permanence := if 1 < p then 1 else p }

/-- Source lines 43-46: subtract `dec` (Python default PERMANENCE_DEC),
then clamp from below at 0.0 only. -/
def Synapse.decPerm (s : Synapse) (dec : ℚ) : Synapse :=
  let p := s.permanence - dec
  { s with permanence := if p < 0 then 0 else p }

/-- Source lines 48-49. -/
def Synapse.getIndex (s : Synapse) : Nat := s.inputIndex

/-- Modelled from the spec: `getSourceInput` (§4.1). The source's
findOverlap (line 88) calls `s.getSourcetInput(t)`, a method absent from
the Synapse class; per the spec it returns the input-vector bit at the
synapse's index (as 0 or 1) and fails with OutOfRangeError when the index
exceeds the input vector length. -/
def Synapse.getSourceInput (s : Synapse) (input : List Bool) : Except OutOfRangeError Nat :=
  if h : s.inputIndex < input.length then
    Except.ok (if input.get ⟨s.inputIndex, h⟩ then 1 else 0)
  else
    Except.error OutOfRangeError.mk

/-- Source lines 52-54: a cell owns a list of (distal) synapses; no
behaviour in this core. -/
structure Cell : Type where
  synapses : List Synapse
deriving DecidableEq

/-- Source lines 57-65: a column owns a boost factor, a per-timestep
overlap, four cells, and its proximal synapses. -/
structure Column : Type where
  boost : ℚ
  overlap : ℚ
  cells : List Cell
  synapses : List Synapse
deriving DecidableEq

deriving instance DecidableEq for Except

/-- Source lines 59-65 (`Column.__init__`): boost 1.0, overlap 0.0, four
fresh cells, no synapses. -/
def Column.init : Column :=
  { boost := 1, overlap := 0, cells := List.replicate 4 ⟨[]⟩, synapses := [] }

/-- Source lines 67-68. -/
def Column.setBoost (c : Column) (boost : ℚ) : Column :=
  { c with boost := boost }

/-- Source lines 70-71 (Python default argument 0.0, written explicitly at
call sites here). -/
def Column.setOverlap (c : Column) (overlap : ℚ) : Column :=
  { c with overlap := overlap }

/-- Source lines 73-74. -/
def Column.getOverlap (c : Column) : ℚ := c.overlap

/-- Source lines 76-77: `overlap *= boost`. -/
def Column.boostOverlap (c : Column) : Column :=
  { c with overlap := c.overlap * c.boost }

/-- Source lines 79-80, translated literally: `map(lambda x: x.isConnected(),
self.synapses)` — a sequence of booleans, one per synapse (the method name
`isConnected` does not even exist on Synapse, whose method is the misspelt
`isConnnected`; we grant the typo here, since otherwise the call raises
AttributeError). -/
def Column.getConnectedSynapses (c : Column) : List Bool :=
  c.synapses.map (fun s => s.isConnnected)

/-- Modelled from the spec: `connectedSynapses()` (§4.2) filters the
proximal synapses by `isConnected()`, returning the synapses themselves;
this is what the overlap phase consumes (the source's literal
getConnectedSynapses, kept above, returns booleans instead). -/
def Column.connectedSynapses (c : Column) : List Synapse :=
  c.synapses.filter (fun s => s.isConnnected)

/-- The inner loop of findOverlap (source lines 87-88): for each connected
synapse, `c.setOverlap(c.getOverlap() + s.getSourceInput(t))`, with the
out-of-range error propagating. -/
def overlapLoop (input : List Bool) : Column → List Synapse → Except OutOfRangeError Column
  | c, [] => Except.ok c
  | c, s :: rest =>
    match s.getSourceInput input with
    | Except.error e => Except.error e
    | Except.ok v => overlapLoop input (c.setOverlap (c.getOverlap + (v : ℚ))) rest

/-- The per-column body of findOverlap (source lines 85-93): reset overlap
to 0, accumulate the connected synapses' input bits, then zero the overlap
if it is below minOverlap and otherwise boost it. -/
def Column.findOverlapStep (c : Column) (input : List Bool) (minOverlap : ℚ) : Except OutOfRangeError Column :=
  match overlapLoop input (c.setOverlap 0) c.connectedSynapses with
  | Except.error e => Except.error e
  | Except.ok c1 =>
    if c1.getOverlap < minOverlap then Except.ok (c1.setOverlap 0)
    else Except.ok c1.boostOverlap

/-- Source lines 83-93: the spatial-pooler overlap phase over all columns
of the region; `input` is the input vector for the timestep. -/
def findOverlap (input : List Bool) (minOverlap : ℚ) : List Column → Except OutOfRangeError (List Column)
  | [] => Except.ok []
  | c :: rest =>
    match c.findOverlapStep input minOverlap with
    | Except.error e => Except.error e
    | Except.ok c1 =>
      match findOverlap input minOverlap rest with
      | Except.error e => Except.error e
      | Except.ok rest1 => Except.ok (c1 :: rest1)

/-- The raw overlap of spec §4.3: the count of a column's connected
synapses whose input bit is 1 (out-of-range indices read as 0 here; the
overlap theorems assume all indices in range, and the error contract is
settled separately). -/
def Column.rawOverlap (c : Column) (input : List Bool) : ℚ :=
  ((c.connectedSynapses.filter (fun s => input.getD s.inputIndex false)).length : ℚ)

/-- Modelled from the spec: `kthScore` (§9) is called by findActiveColumns
(source line 104) but nowhere defined.  Per the spec it is the k-th largest
(1-indexed) of a finite sequence of overlap values; the float
desiredLocalActivity is treated as a count (spec §4.4), hence k : Nat.  For
k beyond the sequence length it yields 0, which no column can beat strictly
(selection already requires overlap > 0). -/
def kthScore (overlaps : List ℚ) (k : Nat) : ℚ :=
  (overlaps.insertionSort (fun a b => a ≥ b)).getD (k - 1) 0

/-- Modelled from the spec: `getNeighbors` (source line 104) is nowhere
defined.  Per spec §3/§4.4 the Region is an ordered sequence of columns
with identity-stable indices and an adjacency function `nbrs`; the
competition neighborhood of column i is `nbrs i ∪ {i}` — the column itself
always competes, modelled by consing `i` in front. -/
def neighborhood (nbrs : Nat → List Nat) (i : Nat) : List Nat :=
  i :: nbrs i

/-- Source lines 99-107: the selection loop.  Columns are region indices;
`ov i` is column i's overlap after the overlap phase.  A column is skipped
unless its overlap is strictly positive, and wins iff its overlap is at
least the k-th largest overlap of its neighborhood. -/
def findActiveLoop (ov : Nat → ℚ) (nbrs : Nat → List Nat) (k : Nat) : List Nat → List Nat
  | [] => []
  | c :: rest =>
    if 0 < ov c then
      if kthScore ((neighborhood nbrs c).map ov) k ≤ ov c then
        c :: findActiveLoop ov nbrs k rest
      else
        findActiveLoop ov nbrs k rest
    else
      findActiveLoop ov nbrs k rest

/-- Source lines 97-109: the selection phase; line 109 stores the winners
in the ACTIVE_COLUMNS map under timestep t (`ACTIVE_COLUMNS[t] =
activeColumns`, an unconditional dictionary assignment).  The log is
modelled as a partial map from timesteps to recorded index sets. -/
def findActiveColumns (columns : List Nat) (ov : Nat → ℚ) (nbrs : Nat → List Nat) (k : Nat)
    (t : Nat) (activeColumnsLog : Nat → Option (List Nat)) : Nat → Option (List Nat) :=
  fun u => if u = t then some (findActiveLoop ov nbrs k columns) else activeColumnsLog u

/-- Modelled from the spec: learnAndInhibit (source line 114) iterates
`c.getSynapses()`, a method absent from Column; spec §4.5/§9 resolve the
learning target to the column's proximal synapses. -/
def Column.getSynapses (c : Column) : List Synapse :=
  c.synapses

/-- The per-column body of learnAndInhibit (source lines 113-118): each
synapse of the column is incremented by PERMANENCE_INC if active, else
decremented by PERMANENCE_DEC (the Python calls use the default
arguments). -/
def Column.learnStep (c : Column) : Column :=
  { c with
    synapses := c.getSynapses.map (fun s =>
      if s.isActive then s.incPerm PERMANENCE_INC else s.decPerm PERMANENCE_DEC) }

/-- Source lines 112-118: the learning phase over the active columns. -/
def learnAndInhibit (activeColumns : List Column) : List Column :=
  activeColumns.map (fun c => c.learnStep)

/- Concrete objects used by the witnesses and counterexamples. -/

/-- A synapse on input bit 0 with permanence 0.5 (spec scenario 1). -/
def synHalf : Synapse := { isactive := false, inputIndex := 0, permanence := 1/2 }

/-- A synapse whose input index 2 exceeds a length-1 input vector. -/
def synFar : Synapse := { isactive := false, inputIndex := 2, permanence := 1/2 }

/-- A synapse sitting exactly at the connection threshold 0.2. -/
def synBoundary : Synapse := { isactive := false, inputIndex := 0, permanence := 2/10 }

/-- A synapse at permanence 0.95 (spec scenario 5). -/
def syn95 : Synapse := { isactive := false, inputIndex := 0, permanence := 95/100 }

/-- Scenario-1 column: boost 1, one connected synapse on input bit 0. -/
def colOne : Column := { boost := 1, overlap := 0, cells := [], synapses := [synHalf] }

/-- Scenario-4 active synapse: active, permanence 0.1. -/
def synA : Synapse := { isactive := true, inputIndex := 0, permanence := 1/10 }

/-- Scenario-4 inactive synapse: inactive, permanence 0.1. -/
def synI : Synapse := { isactive := false, inputIndex := 1, permanence := 1/10 }

/-- Scenario-4 column: two synapses at permanence 0.1, one active and one
inactive. -/
def colLearn : Column := { boost := 1, overlap := 0, cells := [], synapses := [synA, synI] }

/-- Scenario-3 overlaps [5, 3, 3] on columns 0, 1, 2. -/
def ovEx : Nat → ℚ := fun i => ([5, 3, 3] : List ℚ).getD i 0

/-- Scenario-3 single neighborhood: each column's neighbors are the other
two. -/
def nbrsEx : Nat → List Nat := fun i => ([[1, 2], [0, 2], [0, 1]] : List (List Nat)).getD i []

/-- Scenario-3 overlaps with column 1 raised from 3 to 10. -/
def ovRaised : Nat → ℚ := Function.update ovEx 1 10

/-- A one-column region whose single column has overlap 5. -/
def ovC6 : Nat → ℚ := fun i => if i = 0 then (5 : ℚ) else 0

/-- Trivial adjacency: no neighbors. -/
def nbrsC6 : Nat → List Nat := fun _ => []

/-- A log that already records the active set [9] for timestep 0. -/
def lgEx : Nat → Option (List Nat) := fun u => if u = 0 then some [9] else none

/- ------------------------------------------------------------------ -/
/- Helper lemmas                                                      -/
/- ------------------------------------------------------------------ -/

theorem setOverlap_overlap (c : Column) (x : ℚ) : (c.setOverlap x).overlap = x := rfl

theorem setOverlap_setOverlap (c : Column) (x y : ℚ) :
    (c.setOverlap x).setOverlap y = c.setOverlap y := rfl

theorem overlapLoop_ok (input : List Bool) (syns : List Synapse) :
    ∀ c : Column, (∀ s ∈ syns, s.inputIndex < input.length) →
      overlapLoop input c syns =
        Except.ok (c.setOverlap (c.overlap +
          ((syns.filter (fun s => input.getD s.inputIndex false)).length : ℚ))) := by
  induction syns with
  | nil =>
    intro c _
    show Except.ok c = _
    simp [Column.setOverlap]
  | cons s rest ih =>
    intro c h
    have hs : s.inputIndex < input.length := h s (List.mem_cons_self s rest)
    have hrest : ∀ x ∈ rest, x.inputIndex < input.length :=
      fun x hx => h x (List.mem_cons_of_mem s hx)
    simp only [overlapLoop, Synapse.getSourceInput, dif_pos hs]
    rw [ih _ hrest]
    have hd : input.getD s.inputIndex false = input.get ⟨s.inputIndex, hs⟩ := by
      simp [List.getD_eq_getElem?_getD, List.getElem?_eq_getElem hs]
    by_cases hb : input.get ⟨s.inputIndex, hs⟩ = true
    · simp only [hb, if_true, List.filter_cons, hd, Column.setOverlap, Column.getOverlap,
        List.length_cons]
      congr 1
      push_cast
      ring_nf
    · rw [Bool.not_eq_true] at hb
      simp only [hb, if_false, List.filter_cons, hd, Column.setOverlap, Column.getOverlap]
      congr 1
      push_cast
      ring_nf

theorem findOverlapStep_eq (c : Column) (input : List Bool) (m : ℚ)
    (h : ∀ s ∈ c.connectedSynapses, s.inputIndex < input.length) :
    c.findOverlapStep input m =
      Except.ok (c.setOverlap
        (if c.rawOverlap input < m then 0 else c.rawOverlap input * c.boost)) := by
  unfold Column.findOverlapStep
  rw [overlapLoop_ok input c.connectedSynapses (c.setOverlap 0) h]
  have hx : (c.setOverlap 0).setOverlap ((c.setOverlap 0).overlap +
      ((c.connectedSynapses.filter (fun s => input.getD s.inputIndex false)).length : ℚ)) =
      c.setOverlap (c.rawOverlap input) := by
    simp [Column.setOverlap, Column.rawOverlap]
  rw [hx]
  show (if (c.setOverlap (c.rawOverlap input)).getOverlap < m then _ else _) = _
  by_cases hm : c.rawOverlap input < m
  · rw [if_pos hm, if_pos (show (c.setOverlap (c.rawOverlap input)).getOverlap < m from hm)]
    rfl
  · rw [if_neg hm, if_neg (show ¬(c.setOverlap (c.rawOverlap input)).getOverlap < m from hm)]
    rfl

/-- C1: after the overlap phase (findOverlap), every column's final overlap
is 0 when its raw overlap (the count of its connected synapses whose input
bit is 1) is strictly below minOverlap, and otherwise is the raw overlap
multiplied by the column's boost factor. -/
theorem findOverlap_thresholds_and_boosts (columns : List Column) (input : List Bool) (m : ℚ)
    (h : ∀ c ∈ columns, ∀ s ∈ c.connectedSynapses, s.inputIndex < input.length) :
    findOverlap input m columns =
      Except.ok (columns.map (fun c =>
        c.setOverlap (if c.rawOverlap input < m then 0 else c.rawOverlap input * c.boost))) := by
  induction columns with
  | nil => rfl
  | cons c rest ih =>
    have hc := h c (List.mem_cons_self c rest)
    have hrest : ∀ x ∈ rest, ∀ s ∈ x.connectedSynapses, s.inputIndex < input.length :=
      fun x hx => h x (List.mem_cons_of_mem c hx)
    simp only [findOverlap, findOverlapStep_eq c input m hc, ih hrest, List.map_cons]

/-- Witness for C1 at spec scenario 1: one column, one connected synapse
(permanence 0.5) on input bit 0, input vector [1], minOverlap 0, boost 1;
the final overlap is 1. -/
theorem findOverlap_thresholds_and_boosts_witness :
    (∀ c ∈ [colOne], ∀ s ∈ c.connectedSynapses, s.inputIndex < ([true] : List Bool).length) ∧
    findOverlap [true] 0 [colOne] =
      Except.ok ([colOne].map (fun c =>
        c.setOverlap (if c.rawOverlap [true] < 0 then 0 else c.rawOverlap [true] * c.boost))) ∧
    findOverlap [true] 0 [colOne] = Except.ok [colOne.setOverlap 1] :=
  ⟨by with_unfolding_all decide,
   findOverlap_thresholds_and_boosts [colOne] [true] 0 (by with_unfolding_all decide),
   by with_unfolding_all decide⟩

theorem overlapLoop_ok_ranges (input : List Bool) (syns : List Synapse) :
    ∀ c c1 : Column, overlapLoop input c syns = Except.ok c1 →
      ∀ s ∈ syns, s.inputIndex < input.length := by
  induction syns with
  | nil =>
    intro c c1 _ s hs
    cases hs
  | cons s rest ih =>
    intro c c1 hok x hx
    by_cases hs : s.inputIndex < input.length
    · rcases List.mem_cons.mp hx with rfl | hmem
      · exact hs
      · simp only [overlapLoop, Synapse.getSourceInput, dif_pos hs] at hok
        exact ih _ _ hok x hmem
    · exfalso
      simp [overlapLoop, Synapse.getSourceInput, dif_neg hs] at hok

theorem findOverlapStep_ok_ranges (c c1 : Column) (input : List Bool) (m : ℚ)
    (h : c.findOverlapStep input m = Except.ok c1) :
    ∀ s ∈ c.connectedSynapses, s.inputIndex < input.length := by
  unfold Column.findOverlapStep at h
  cases hlo : overlapLoop input (c.setOverlap 0) c.connectedSynapses with
  | error e => simp [hlo] at h
  | ok c2 => exact overlapLoop_ok_ranges input c.connectedSynapses _ _ hlo

/-- C7: reading a synapse's source input returns the input-vector bit at
its index and fails with OutOfRangeError when the index is beyond the
vector; such a failure aborts the overlap phase, so an ok result of
findOverlap forces every connected synapse's index to be in range. -/
theorem getSourceInput_contract :
    (∀ (s : Synapse) (input : List Bool) (h : s.inputIndex < input.length),
        s.getSourceInput input = Except.ok (if input.get ⟨s.inputIndex, h⟩ then 1 else 0)) ∧
    (∀ (s : Synapse) (input : List Bool), input.length ≤ s.inputIndex →
        s.getSourceInput input = Except.error OutOfRangeError.mk) ∧
    (∀ (input : List Bool) (m : ℚ) (columns r : List Column),
        findOverlap input m columns = Except.ok r →
        ∀ c ∈ columns, ∀ s ∈ c.connectedSynapses, s.inputIndex < input.length) := by
  refine ⟨?_, ?_, ?_⟩
  · intro s input h
    rw [Synapse.getSourceInput, dif_pos h]
  · intro s input h
    rw [Synapse.getSourceInput, dif_neg (not_lt.mpr h)]
  · intro input m columns
    induction columns with
    | nil =>
      intro r _ c hc
      cases hc
    | cons c rest ih =>
      intro r h x hx
      simp only [findOverlap] at h
      cases hstep : c.findOverlapStep input m with
      | error e => rw [hstep] at h; cases h
      | ok c1 =>
        rw [hstep] at h
        cases hrest : findOverlap input m rest with
        | error e => rw [hrest] at h; cases h
        | ok r1 =>
          rcases List.mem_cons.mp hx with rfl | hmem
          · exact findOverlapStep_ok_ranges _ _ _ _ hstep
          · exact ih r1 hrest x hmem

/-- Witness for C7: an in-range synapse (index 0, input [1]) reads bit 1;
a synapse with index 2 against the same length-1 vector fails with
OutOfRangeError. -/
theorem getSourceInput_contract_witness :
    synHalf.getSourceInput [true] = Except.ok 1 ∧
    synFar.getSourceInput [true] = Except.error OutOfRangeError.mk := by
  constructor
  · have h := getSourceInput_contract.1 synHalf [true] (by decide)
    simpa using h
  · exact getSourceInput_contract.2.1 synFar [true] (by decide)

theorem mem_findActiveLoop_iff (ov : Nat → ℚ) (nbrs : Nat → List Nat) (k : Nat) (i : Nat)
    (cols : List Nat) :
    i ∈ findActiveLoop ov nbrs k cols ↔
      i ∈ cols ∧ 0 < ov i ∧ kthScore ((neighborhood nbrs i).map ov) k ≤ ov i := by
  induction cols with
  | nil => simp [findActiveLoop]
  | cons c rest ih =>
    by_cases h1 : 0 < ov c
    · by_cases h2 : kthScore ((neighborhood nbrs c).map ov) k ≤ ov c
      · simp only [findActiveLoop, if_pos h1, if_pos h2, List.mem_cons, ih]
        constructor
        · rintro (rfl | ⟨hm, hpos, hth⟩)
          · exact ⟨Or.inl rfl, h1, h2⟩
          · exact ⟨Or.inr hm, hpos, hth⟩
        · rintro ⟨rfl | hm, hpos, hth⟩
          · exact Or.inl rfl
          · exact Or.inr ⟨hm, hpos, hth⟩
      · simp only [findActiveLoop, if_pos h1, if_neg h2, List.mem_cons, ih]
        constructor
        · rintro ⟨hm, hpos, hth⟩
          exact ⟨Or.inr hm, hpos, hth⟩
        · rintro ⟨rfl | hm, hpos, hth⟩
          · exact absurd hth h2
          · exact ⟨hm, hpos, hth⟩
    · simp only [findActiveLoop, if_neg h1, List.mem_cons, ih]
      constructor
      · rintro ⟨hm, hpos, hth⟩
        exact ⟨Or.inr hm, hpos, hth⟩
      · rintro ⟨rfl | hm, hpos, hth⟩
        · exact absurd hpos h1
        · exact ⟨hm, hpos, hth⟩

/-- C2: a column with strictly positive overlap is recorded active at
timestep t iff its overlap is at least the k-th largest overlap of its
neighborhood (itself included), so all columns tied at the threshold win;
a column with overlap 0 is never recorded active. -/
theorem findActiveColumns_kth_selection (columns : List Nat) (ov : Nat → ℚ)
    (nbrs : Nat → List Nat) (k t : Nat) (lg : Nat → Option (List Nat)) (i : Nat)
    (hmem : i ∈ columns) :
    (0 < ov i →
      (i ∈ ((findActiveColumns columns ov nbrs k t lg) t).getD [] ↔
        kthScore ((neighborhood nbrs i).map ov) k ≤ ov i)) ∧
    (ov i = 0 → i ∉ ((findActiveColumns columns ov nbrs k t lg) t).getD []) := by
  have hlog : ((findActiveColumns columns ov nbrs k t lg) t).getD [] =
      findActiveLoop ov nbrs k columns := by
    simp [findActiveColumns]
  constructor
  · intro hpos
    rw [hlog, mem_findActiveLoop_iff]
    exact ⟨fun h => h.2.2, fun h => ⟨hmem, hpos, h⟩⟩
  · intro h0
    rw [hlog, mem_findActiveLoop_iff]
    rintro ⟨-, hpos, -⟩
    rw [h0] at hpos
    exact lt_irrefl 0 hpos

/-- Witness for C2 at spec scenario 3: three columns in one neighborhood
with overlaps [5, 3, 3] and desiredLocalActivity 2; the 2nd-largest
neighborhood overlap is 3, and column 2 (overlap 3, tied at the boundary)
is recorded active. -/
theorem findActiveColumns_kth_selection_witness :
    (2 ∈ ([0, 1, 2] : List Nat) ∧ 0 < ovEx 2) ∧
    2 ∈ ((findActiveColumns [0, 1, 2] ovEx nbrsEx 2 0 (fun _ => none)) 0).getD [] ∧
    ((findActiveColumns [0, 1, 2] ovEx nbrsEx 2 0 (fun _ => none)) 0).getD [] = [0, 1, 2] :=
  ⟨⟨by decide, by with_unfolding_all decide⟩,
   ((findActiveColumns_kth_selection [0, 1, 2] ovEx nbrsEx 2 0 (fun _ => none) 2
      (by decide)).1 (by with_unfolding_all decide)).mpr (by with_unfolding_all decide),
   by with_unfolding_all decide⟩

theorem sorted_getD_le_iff (x : ℚ) :
    ∀ s : List ℚ, List.Sorted (fun a b : ℚ => a ≥ b) s → ∀ j : Nat, j < s.length →
      (s.getD j 0 ≤ x ↔ s.countP (fun z => decide (x < z)) ≤ j) := by
  intro s
  induction s with
  | nil =>
    intro _ j hj
    cases hj
  | cons a t ih =>
    intro hs j hj
    have ha : ∀ b ∈ t, b ≤ a := fun b hb => List.rel_of_sorted_cons hs b hb
    have hst : List.Sorted (fun a b : ℚ => a ≥ b) t := hs.of_cons
    cases j with
    | zero =>
      simp only [List.getD_cons_zero]
      constructor
      · intro hax
        have hzero : List.countP (fun z => decide (x < z)) (a :: t) = 0 := by
          rw [List.countP_eq_zero]
          intro z hz
          rcases List.mem_cons.mp hz with rfl | hzt
          · simpa using not_lt.mpr hax
          · simpa using not_lt.mpr (le_trans (ha z hzt) hax)
        exact le_of_eq hzero
      · intro h0
        have h0eq : List.countP (fun z => decide (x < z)) (a :: t) = 0 := Nat.le_zero.mp h0
        rw [List.countP_eq_zero] at h0eq
        have := h0eq a (List.mem_cons_self a t)
        simpa [not_lt] using this
    | succ n =>
      simp only [List.getD_cons_succ]
      have hn : n < t.length := by
        simpa using Nat.lt_of_succ_lt_succ hj
      by_cases hxa : x < a
      · have hda : decide (x < a) = true := by simpa using hxa
        rw [ih hst n hn, List.countP_cons, hda]
        simp only [if_true]
        omega
      · have hax : a ≤ x := not_lt.mp hxa
        have hmem : t.getD n 0 ∈ t := by
          rw [List.getD_eq_getElem?_getD, List.getElem?_eq_getElem hn]
          exact List.getElem_mem hn
        have hleft : t.getD n 0 ≤ x := le_trans (ha _ hmem) hax
        have hright : List.countP (fun z => decide (x < z)) (a :: t) = 0 := by
          rw [List.countP_eq_zero]
          intro z hz
          rcases List.mem_cons.mp hz with rfl | hzt
          · simpa using not_lt.mpr hax
          · simpa using not_lt.mpr (le_trans (ha z hzt) hax)
        constructor
        · intro _
          rw [hright]
          exact Nat.zero_le _
        · intro _
          exact hleft

theorem kthScore_le_iff (l : List ℚ) (x : ℚ) (k : Nat) (hk : k - 1 < l.length) :
    kthScore l k ≤ x ↔ l.countP (fun z => decide (x < z)) ≤ k - 1 := by
  unfold kthScore
  have hperm := List.perm_insertionSort (fun a b : ℚ => a ≥ b) l
  have hsort : List.Sorted (fun a b : ℚ => a ≥ b)
      (l.insertionSort (fun a b : ℚ => a ≥ b)) := List.sorted_insertionSort _ l
  have hlen : (l.insertionSort (fun a b : ℚ => a ≥ b)).length = l.length := hperm.length_eq
  rw [sorted_getD_le_iff x _ hsort (k - 1) (by rw [hlen]; exact hk)]
  rw [hperm.countP_eq]

theorem kthScore_cons_mono (S : List ℚ) (x y : ℚ) (k : Nat)
    (hxy : x ≤ y) (hy0 : 0 ≤ y) (hx : kthScore (x :: S) k ≤ x) :
    kthScore (y :: S) k ≤ y := by
  by_cases hk : k - 1 < (x :: S).length
  · have hk2 : k - 1 < (y :: S).length := by simpa using hk
    rw [kthScore_le_iff _ _ _ hk] at hx
    rw [kthScore_le_iff _ _ _ hk2]
    rw [List.countP_cons] at hx ⊢
    have hxx : decide (x < x) = false := by simp
    have hyy : decide (y < y) = false := by simp
    rw [hxx] at hx
    rw [hyy]
    simp only [Bool.false_eq_true, if_false, Nat.add_zero] at hx ⊢
    have hmono : S.countP (fun z => decide (y < z)) ≤ S.countP (fun z => decide (x < z)) := by
      apply List.countP_mono_left
      intro a _ h
      simp only [decide_eq_true_eq] at h ⊢
      exact lt_of_le_of_lt hxy h
    exact le_trans hmono hx
  · unfold kthScore
    rw [List.getD_eq_default]
    · exact hy0
    · have hlen := (List.perm_insertionSort (fun a b : ℚ => a ≥ b) (y :: S)).length_eq
      rw [hlen]
      simp only [List.length_cons] at hk ⊢
      omega

/-- C8: active-column selection is monotonic in a column's own overlap:
if column i is selected under overlaps ov, then under overlaps that agree
with ov everywhere except that i's overlap is raised, i is still
selected. -/
theorem selection_monotone_in_own_overlap (columns : List Nat) (ov ovN : Nat → ℚ)
    (nbrs : Nat → List Nat) (k i : Nat)
    (hself : i ∉ nbrs i)
    (hinc : ov i ≤ ovN i)
    (hfix : ∀ j, j ≠ i → ovN j = ov j)
    (hact : i ∈ findActiveLoop ov nbrs k columns) :
    i ∈ findActiveLoop ovN nbrs k columns := by
  rw [mem_findActiveLoop_iff] at hact ⊢
  obtain ⟨hm, hpos, hth⟩ := hact
  refine ⟨hm, lt_of_lt_of_le hpos hinc, ?_⟩
  have hS : (nbrs i).map ovN = (nbrs i).map ov := by
    apply List.map_congr_left
    intro j hj
    exact hfix j (fun h => hself (h ▸ hj))
  show kthScore ((neighborhood nbrs i).map ovN) k ≤ ovN i
  have hunf : (neighborhood nbrs i).map ovN = ovN i :: (nbrs i).map ovN := rfl
  rw [hunf, hS]
  have hth2 : kthScore (ov i :: (nbrs i).map ov) k ≤ ov i := hth
  exact kthScore_cons_mono _ _ _ _ hinc (le_of_lt (lt_of_lt_of_le hpos hinc)) hth2

/-- Witness for C8: with scenario-3 overlaps [5, 3, 3] and k = 2, column 1
is active; raising its overlap from 3 to 10 (others fixed) keeps it
active. -/
theorem selection_monotone_in_own_overlap_witness :
    ((1 : Nat) ∉ nbrsEx 1 ∧ ovEx 1 ≤ ovRaised 1 ∧
      1 ∈ findActiveLoop ovEx nbrsEx 2 [0, 1, 2]) ∧
    1 ∈ findActiveLoop ovRaised nbrsEx 2 [0, 1, 2] :=
  ⟨⟨by decide, by with_unfolding_all decide, by with_unfolding_all decide⟩,
   selection_monotone_in_own_overlap [0, 1, 2] ovEx ovRaised nbrsEx 2 1 (by decide)
     (by with_unfolding_all decide)
     (fun j hj => Function.update_noteq hj 10 ovEx)
     (by with_unfolding_all decide)⟩

/-- Counterexample to C3 as stated: a direct setPermanence(1.5) stores 1.5,
outside [0, 1] — direct sets do not clamp. -/
theorem setPermanence_unclamped_cex :
    ((Synapse.init 0).setPermanence (3/2)).permanence = 3/2 ∧
    ¬ ((Synapse.init 0).setPermanence (3/2)).permanence ≤ 1 := by
  with_unfolding_all decide

/-- C3 amended: incPerm clamps only from above at 1 and decPerm only from
below at 0, so from a permanence already in [0,1] and nonnegative deltas
both keep the permanence in [0,1]; a direct setPermanence stores its
argument unclamped. -/
theorem permanence_clamped_amended (s : Synapse) (inc dec : ℚ)
    (h0 : 0 ≤ s.permanence) (h1 : s.permanence ≤ 1) (hi : 0 ≤ inc) (hd : 0 ≤ dec) :
    (0 ≤ (s.incPerm inc).permanence ∧ (s.incPerm inc).permanence ≤ 1) ∧
    (0 ≤ (s.decPerm dec).permanence ∧ (s.decPerm dec).permanence ≤ 1) ∧
    ∀ p : ℚ, (s.setPermanence p).permanence = p := by
  have hip : (s.incPerm inc).permanence =
      (if 1 < s.permanence + inc then 1 else s.permanence + inc) := rfl
  have hdp : (s.decPerm dec).permanence =
      (if s.permanence - dec < 0 then 0 else s.permanence - dec) := rfl
  refine ⟨⟨?_, ?_⟩, ⟨?_, ?_⟩, fun p => rfl⟩
  · rw [hip]
    split_ifs with h
    · norm_num
    · linarith
  · rw [hip]
    split_ifs with h
    · norm_num
    · linarith
  · rw [hdp]
    split_ifs with h
    · norm_num
    · linarith
  · rw [hdp]
    split_ifs with h
    · norm_num
    · linarith

/-- Witness for C3's amended claim at spec scenario 5: permanence 0.95,
increment 0.1 — the result clamps to exactly 1, staying in [0, 1]. -/
theorem permanence_clamped_amended_witness :
    (0 ≤ syn95.permanence ∧ syn95.permanence ≤ 1 ∧
      (0 : ℚ) ≤ 1/10 ∧ (0 : ℚ) ≤ 5/100) ∧
    (0 ≤ (syn95.incPerm (1/10)).permanence ∧ (syn95.incPerm (1/10)).permanence ≤ 1) ∧
    (syn95.incPerm PERMANENCE_INC).permanence = 1 :=
  ⟨⟨by with_unfolding_all decide, by with_unfolding_all decide,
    by with_unfolding_all decide, by with_unfolding_all decide⟩,
   (permanence_clamped_amended syn95 (1/10) (5/100) (by with_unfolding_all decide)
      (by with_unfolding_all decide) (by with_unfolding_all decide)
      (by with_unfolding_all decide)).1,
   by with_unfolding_all decide⟩

/-- C4 (code bug): on a column with one connected synapse (permanence 0.5),
the source's getConnectedSynapses yields the boolean list [true] — a map of
connectivity flags — while the spec's connectedSynapses yields the filtered
subsequence of Synapse objects themselves. -/
theorem getConnectedSynapses_returns_booleans :
    colOne.getConnectedSynapses = [true] ∧
    colOne.connectedSynapses = [synHalf] := by
  with_unfolding_all decide

/-- C9: a synapse is connected iff its permanence strictly exceeds
CONNECTED_PERM; a permanence exactly at the threshold is not connected. -/
theorem isConnnected_iff_above_threshold (s : Synapse) :
    (s.isConnnected = true ↔ CONNECTED_PERM < s.permanence) ∧
    (s.permanence = CONNECTED_PERM → s.isConnnected = false) := by
  constructor
  · simp [Synapse.isConnnected]
  · intro h
    simp [Synapse.isConnnected, h]

/-- Witness for C9: a synapse at permanence exactly 0.2 is not connected;
one at 0.5 is. -/
theorem isConnnected_iff_above_threshold_witness :
    synBoundary.permanence = CONNECTED_PERM ∧
    synBoundary.isConnnected = false ∧
    synHalf.isConnnected = true :=
  ⟨by with_unfolding_all decide,
   (isConnnected_iff_above_threshold synBoundary).2 (by with_unfolding_all decide),
   (isConnnected_iff_above_threshold synHalf).1.mpr (by with_unfolding_all decide)⟩

/-- C10: a fresh synapse starts with permanence 0 and inactive flag, is not
connected, and adding it to a column changes neither the column's
connected-synapse list nor its raw overlap. -/
theorem init_synapse_inert (i : Nat) (c : Column) (input : List Bool) :
    (Synapse.init i).permanence = 0 ∧
    (Synapse.init i).isActive = false ∧
    (Synapse.init i).isConnnected = false ∧
    (Column.mk c.boost c.overlap c.cells (Synapse.init i :: c.synapses)).connectedSynapses
      = c.connectedSynapses ∧
    (Column.mk c.boost c.overlap c.cells (Synapse.init i :: c.synapses)).rawOverlap input
      = c.rawOverlap input := by
  have hnc : (Synapse.init i).isConnnected = false := by
    rw [Synapse.isConnnected, decide_eq_false_iff_not]
    show ¬ CONNECTED_PERM < (Synapse.init i).permanence
    rw [Synapse.init]
    norm_num [CONNECTED_PERM]
  have hcs : (Column.mk c.boost c.overlap c.cells
      (Synapse.init i :: c.synapses)).connectedSynapses = c.connectedSynapses := by
    simp [Column.connectedSynapses, List.filter_cons, hnc]
  refine ⟨rfl, rfl, hnc, hcs, ?_⟩
  rw [Column.rawOverlap, Column.rawOverlap, hcs]

theorem ite_min_form (q : ℚ) : (if 1 < q then 1 else q) = min q 1 := by
  by_cases h : 1 < q
  · rw [if_pos h, min_eq_right (le_of_lt h)]
  · rw [if_neg h, min_eq_left (not_lt.mp h)]

theorem ite_max_form (q : ℚ) : (if q < 0 then 0 else q) = max q 0 := by
  by_cases h : q < 0
  · rw [if_pos h, max_eq_right (le_of_lt h)]
  · rw [if_neg h, max_eq_left (not_lt.mp h)]

/-- C5: learning visits each proximal synapse of each active column; an
active synapse's permanence becomes min(p + PERMANENCE_INC, 1), an inactive
one's becomes max(p - PERMANENCE_DEC, 0), and from a permanence in [0, 1]
the result stays in [0, 1]. -/
theorem learnAndInhibit_updates (cs : List Column) (c : Column) (j : Nat)
    (hc : c ∈ cs) (hj : j < c.synapses.length)
    (h0 : 0 ≤ (c.synapses.getD j (Synapse.init 0)).permanence)
    (h1 : (c.synapses.getD j (Synapse.init 0)).permanence ≤ 1) :
    c.learnStep ∈ learnAndInhibit cs ∧
    c.learnStep.synapses.length = c.synapses.length ∧
    (c.learnStep.synapses.getD j (Synapse.init 0)).permanence =
      (if (c.synapses.getD j (Synapse.init 0)).isActive
        then min ((c.synapses.getD j (Synapse.init 0)).permanence + PERMANENCE_INC) 1
        else max ((c.synapses.getD j (Synapse.init 0)).permanence - PERMANENCE_DEC) 0) ∧
    0 ≤ (c.learnStep.synapses.getD j (Synapse.init 0)).permanence ∧
    (c.learnStep.synapses.getD j (Synapse.init 0)).permanence ≤ 1 := by
  have hinc0 : (0 : ℚ) ≤ PERMANENCE_INC := by norm_num [PERMANENCE_INC]
  have hdec0 : (0 : ℚ) ≤ PERMANENCE_DEC := by norm_num [PERMANENCE_DEC]
  have hsyn : c.learnStep.synapses = c.synapses.map
      (fun s => if s.isActive then s.incPerm PERMANENCE_INC else s.decPerm PERMANENCE_DEC) := rfl
  have hlen : c.learnStep.synapses.length = c.synapses.length := by
    rw [hsyn, List.length_map]
  have hj2 : j < c.learnStep.synapses.length := by
    rw [hlen]
    exact hj
  have hgetmap : c.learnStep.synapses.getD j (Synapse.init 0) =
      (fun s => if s.isActive then s.incPerm PERMANENCE_INC else s.decPerm PERMANENCE_DEC)
        (c.synapses.getD j (Synapse.init 0)) := by
    rw [List.getD_eq_getElem?_getD, List.getElem?_eq_getElem hj2,
      List.getD_eq_getElem?_getD, List.getElem?_eq_getElem hj]
    simp only [hsyn, List.getElem_map, Option.getD_some]
  have hform : (c.learnStep.synapses.getD j (Synapse.init 0)).permanence =
      (if (c.synapses.getD j (Synapse.init 0)).isActive
        then min ((c.synapses.getD j (Synapse.init 0)).permanence + PERMANENCE_INC) 1
        else max ((c.synapses.getD j (Synapse.init 0)).permanence - PERMANENCE_DEC) 0) := by
    rw [hgetmap]
    show (if (c.synapses.getD j (Synapse.init 0)).isActive
        then (c.synapses.getD j (Synapse.init 0)).incPerm PERMANENCE_INC
        else (c.synapses.getD j (Synapse.init 0)).decPerm PERMANENCE_DEC).permanence = _
    by_cases ha : (c.synapses.getD j (Synapse.init 0)).isActive
    · rw [if_pos ha, if_pos ha]
      exact ite_min_form _
    · rw [if_neg ha, if_neg ha]
      exact ite_max_form _
  refine ⟨List.mem_map_of_mem _ hc, hlen, hform, ?_, ?_⟩
  · rw [hform]
    by_cases ha : (c.synapses.getD j (Synapse.init 0)).isActive
    · rw [if_pos ha]
      exact le_min (by linarith) (by norm_num)
    · rw [if_neg ha]
      exact le_max_right _ _
  · rw [hform]
    by_cases ha : (c.synapses.getD j (Synapse.init 0)).isActive
    · rw [if_pos ha]
      exact min_le_right _ _
    · rw [if_neg ha]
      exact max_le (by linarith) (by norm_num)

/-- Witness for C5 at spec scenario 4: an active column with two synapses
at permanence 0.1, one active and one inactive; after learning their
permanences are 0.2 and 0.05. -/
theorem learnAndInhibit_updates_witness :
    (colLearn ∈ [colLearn] ∧ 0 < colLearn.synapses.length ∧
      0 ≤ (colLearn.synapses.getD 0 (Synapse.init 0)).permanence) ∧
    colLearn.learnStep ∈ learnAndInhibit [colLearn] ∧
    (colLearn.learnStep.synapses.getD 0 (Synapse.init 0)).permanence = 2/10 ∧
    (colLearn.learnStep.synapses.getD 1 (Synapse.init 0)).permanence = 5/100 :=
  ⟨⟨by with_unfolding_all decide, by with_unfolding_all decide,
    by with_unfolding_all decide⟩,
   (learnAndInhibit_updates [colLearn] colLearn 0 (by with_unfolding_all decide)
      (by with_unfolding_all decide)
      (by with_unfolding_all decide) (by with_unfolding_all decide)).1,
   by with_unfolding_all decide,
   by with_unfolding_all decide⟩

/-- Counterexample to C6 as stated: with timestep 0 already recorded as
active set [9], running findActiveColumns for timestep 0 again replaces
that entry with the newly computed set [0]. -/
theorem findActiveColumns_overwrites_cex :
    lgEx 0 = some [9] ∧
    (findActiveColumns [0] ovC6 nbrsC6 1 0 lgEx) 0 = some [0] ∧
    (findActiveColumns [0] ovC6 nbrsC6 1 0 lgEx) 0 ≠ lgEx 0 := by
  with_unfolding_all decide

/-- C6 amended: findActiveColumns writes the computed active set under its
timestep unconditionally — replacing any entry already recorded there — and
leaves every other timestep's entry unchanged; writing each timestep at
most once is the orchestrator's discipline, not enforced by the
operation. -/
theorem findActiveColumns_log_write (columns : List Nat) (ov : Nat → ℚ)
    (nbrs : Nat → List Nat) (k t : Nat) (lg : Nat → Option (List Nat)) :
    (findActiveColumns columns ov nbrs k t lg) t
      = some (findActiveLoop ov nbrs k columns) ∧
    ∀ u, u ≠ t → (findActiveColumns columns ov nbrs k t lg) u = lg u := by
  constructor
  · simp [findActiveColumns]
  · intro u hu
    simp [findActiveColumns, hu]

/-- Witness for C6's amended claim: the run records its own timestep 0 and
leaves the unrelated timestep 3 untouched. -/
theorem findActiveColumns_log_write_witness :
    (findActiveColumns [0] ovC6 nbrsC6 1 0 lgEx) 0
      = some (findActiveLoop ovC6 nbrsC6 1 [0]) ∧
    (3 : Nat) ≠ 0 ∧
    (findActiveColumns [0] ovC6 nbrsC6 1 0 lgEx) 3 = lgEx 3 :=
  ⟨(findActiveColumns_log_write [0] ovC6 nbrsC6 1 0 lgEx).1,
   by decide,
   (findActiveColumns_log_write [0] ovC6 nbrsC6 1 0 lgEx).2 3 (by decide)⟩
